import Mathlib

/-!
Verification of the transaction-input decoding and schema-normalization
engine of the Get-Clank bot (src/main.py).

The first half of this file is a shallow embedding of the Python source:

* `Val` models the dynamically-typed Python values flowing through
  `handle_message` (results of `json.loads`, web3 decoded argument dicts).
* `dictLookup`, `pyGet`, `pyGetD` model Python `dict` lookup and `dict.get`
  (with `Option.none` modelling an `AttributeError` raised by calling
  `.get` on a non-dict, which the source catches in its outer
  `try/except`).
* `loads` models `json.loads` restricted to the JSON fragment used by the
  program (objects, arrays, strings with escapes, integers, booleans,
  null; floating-point literals are outside the model).
* `extractEmbeddedJson`, `contextLines`, `normalizeCall` embed
  main.py lines 144-193: the deployToken check, deploymentConfig lookup,
  field extraction, context parsing and context formatting.
* `handleMessage` embeds the full handler main.py lines 111-196, with the
  three network calls (BaseScan contract-creation lookup, transaction
  fetch, web3 input decoding) abstracted as oracles and the observable
  behaviour captured as a trace of `Action`s.

The second half models, from the specification, the components of the
repository's engine that are not part of src/main.py (the raw payload
classifier, the legacy positional decoder, and the ABI call codec), and
proves the claims about them.
-/

namespace GetClank

/-- Python runtime values as they occur in `handle_message`:
`None`, strings, integers, booleans, dicts (insertion-ordered
association lists with unique keys) and lists. -/
inductive Val where
| none : Val
| str : String → Val
| int : Int → Val
| bool : Bool → Val
| dict : List (String × Val) → Val
| list : List Val → Val

/-- Python truthiness (`if not x`): `None`, `""`, `0`, `False`, `{}`, `[]`
are falsy, everything else truthy. -/
def truthy : Val → Bool
| Val.none => false
| Val.str s => !(s == "")
| Val.int n => !(n == 0)
| Val.bool b => b
| Val.dict fs => !fs.isEmpty
| Val.list xs => !xs.isEmpty

/-- First-match association-list lookup, modelling Python dict indexing
(keys of a Python dict are unique, so first-match is exact). -/
def dictLookup : List (String × Val) → String → Option Val
| [], _ => Option.none
| (k, v) :: rest, key => if k = key then some v else dictLookup rest key

/-- `d.get(key)` on a Python value: returns the stored value (or `None`
for a missing key) when `d` is a dict; `Option.none` models the
`AttributeError` raised when `d` is not a dict. -/
def pyGet : Val → String → Option Val
| Val.dict fs, k => some ((dictLookup fs k).getD Val.none)
| _, _ => Option.none

/-- `d.get(key, default)` on a Python value; `Option.none` models the
`AttributeError` raised when `d` is not a dict. -/
def pyGetD : Val → String → Val → Option Val
| Val.dict fs, k, dflt => some ((dictLookup fs k).getD dflt)
| _, _, _ => Option.none

/-- Python `v == "lit"` for a string literal: true exactly when `v` is an
equal string (comparing a non-string with a string is `False`). -/
def isStrEq (v : Val) (s : String) : Bool :=
  match v with
  | Val.str t => decide (t = s)
  | _ => false

mutual

/-- Python `repr` of a value, to the extent `handle_message` can observe
it through `str()` applied to non-string values. -/
def pyRepr : Val → String
| Val.none => "None"
| Val.str s => "\x27" ++ s ++ "\x27"
| Val.int n => toString n
| Val.bool true => "True"
| Val.bool false => "False"
| Val.dict fs => "\x7b" ++ String.intercalate ", " (pyReprFields fs) ++ "\x7d"
| Val.list xs => "[" ++ String.intercalate ", " (pyReprList xs) ++ "]"

/-- `repr` of the entries of a dict. -/
def pyReprFields : List (String × Val) → List String
| [] => []
| (k, v) :: rest => ("\x27" ++ k ++ "\x27: " ++ pyRepr v) :: pyReprFields rest

/-- `repr` of the items of a list. -/
def pyReprList : List Val → List String
| [] => []
| v :: rest => pyRepr v :: pyReprList rest

end

/-- Python `str()` of a value. -/
def pyStr : Val → String
| Val.str s => s
| v => pyRepr v

/-- Python `str.strip()`: remove leading and trailing whitespace. -/
def pyStrip (s : String) : String :=
  String.mk (((s.data.dropWhile Char.isWhitespace).reverse.dropWhile Char.isWhitespace).reverse)

/-! ### A model of `json.loads`

Strict JSON parsing over the fragment exercised by the program: objects,
arrays, strings (with the standard escapes and `\uXXXX`), integers,
`true`/`false`/`null`. Floating-point literals make the parse fail in the
model. The parser is fueled; `loads` supplies ample fuel. -/

/-- The four JSON whitespace characters. -/
def jWs (c : Char) : Bool := c = ' ' || c = '\t' || c = '\n' || c = '\r'

/-- Drop leading JSON whitespace. -/
def skipWs : List Char → List Char
| [] => []
| c :: rest => if jWs c then skipWs rest else c :: rest

/-- Value of a hexadecimal digit character. -/
def hexVal? (c : Char) : Option Nat :=
  if '0' ≤ c ∧ c ≤ '9' then some (c.toNat - 48)
  else if 'a' ≤ c ∧ c ≤ 'f' then some (c.toNat - 87)
  else if 'A' ≤ c ∧ c ≤ 'F' then some (c.toNat - 70)
  else Option.none

/-- Single-character JSON string escapes. -/
def escChar? (c : Char) : Option Char :=
  if c = '\"' then some '\"'
  else if c = '\\' then some '\\'
  else if c = '/' then some '/'
  else if c = 'b' then some '\x08'
  else if c = 'f' then some '\x0c'
  else if c = 'n' then some '\n'
  else if c = 'r' then some '\r'
  else if c = 't' then some '\t'
  else Option.none

/-- Parse the body of a JSON string after the opening quote, returning the
decoded characters and the remaining input. -/
def parseStrAux : Nat → List Char → Option (List Char × List Char)
| 0, _ => Option.none
| _ + 1, [] => Option.none
| f + 1, c :: rest =>
  if c = '\"' then some ([], rest)
  else if c = '\\' then
    match rest with
    | 'u' :: a :: b :: c2 :: d :: r =>
      match hexVal? a, hexVal? b, hexVal? c2, hexVal? d with
      | some x, some y, some z, some w =>
        (parseStrAux f r).map (fun p => (Char.ofNat (((x * 16 + y) * 16 + z) * 16 + w) :: p.1, p.2))
      | _, _, _, _ => Option.none
    | e :: r =>
      match escChar? e with
      | some ch => (parseStrAux f r).map (fun p => (ch :: p.1, p.2))
      | Option.none => Option.none
    | [] => Option.none
  else if c.toNat < 32 then Option.none
  else (parseStrAux f rest).map (fun p => (c :: p.1, p.2))

/-- Consume a run of decimal digits, accumulating their value. -/
def parseDigits : List Char → Nat → (Nat × List Char)
| [], acc => (acc, [])
| c :: rest, acc =>
  if c.isDigit then parseDigits rest (acc * 10 + (c.toNat - 48)) else (acc, c :: rest)

/-- Parse a nonnegative integer literal. -/
def parseNatNum : List Char → Option (Nat × List Char)
| [] => Option.none
| c :: rest => if c.isDigit then some (parseDigits rest (c.toNat - 48)) else Option.none

/-- A number continued by `.`/`e`/`E` is a float, outside the model. -/
def floatFollows : List Char → Bool
| [] => false
| c :: _ => c = '.' || c = 'e' || c = 'E'

mutual

/-- Parse one JSON value. -/
def parseVal : Nat → List Char → Option (Val × List Char)
| 0, _ => Option.none
| f + 1, cs =>
  match skipWs cs with
  | [] => Option.none
  | c :: rest =>
    if c = '\x7b' then parseObj f rest
    else if c = '[' then parseArr f rest
    else if c = '\"' then (parseStrAux (f + 1) rest).map (fun p => (Val.str (String.mk p.1), p.2))
    else if c = 't' then
      match rest with
      | 'r' :: 'u' :: 'e' :: r => some (Val.bool true, r)
      | _ => Option.none
    else if c = 'f' then
      match rest with
      | 'a' :: 'l' :: 's' :: 'e' :: r => some (Val.bool false, r)
      | _ => Option.none
    else if c = 'n' then
      match rest with
      | 'u' :: 'l' :: 'l' :: r => some (Val.none, r)
      | _ => Option.none
    else if c = '-' then
      match parseNatNum rest with
      | some (n, r) => if floatFollows r then Option.none else some (Val.int (-(n : Int)), r)
      | Option.none => Option.none
    else if c.isDigit then
      match parseNatNum (c :: rest) with
      | some (n, r) => if floatFollows r then Option.none else some (Val.int (n : Int), r)
      | Option.none => Option.none
    else Option.none

/-- Parse a JSON object after the opening brace. -/
def parseObj : Nat → List Char → Option (Val × List Char)
| 0, _ => Option.none
| f + 1, cs =>
  match skipWs cs with
  | '\x7d' :: r => some (Val.dict [], r)
  | _ => (parsePairs f cs).map (fun p => (Val.dict p.1, p.2))

/-- Parse the members of a JSON object (at least one key/value pair). -/
def parsePairs : Nat → List Char → Option (List (String × Val) × List Char)
| 0, _ => Option.none
| f + 1, cs =>
  match skipWs cs with
  | '\"' :: r =>
    match parseStrAux (f + 1) r with
    | some (k, r1) =>
      match skipWs r1 with
      | ':' :: r2 =>
        match parseVal f r2 with
        | some (v, r3) =>
          match skipWs r3 with
          | ',' :: r4 => (parsePairs f r4).map (fun p => ((String.mk k, v) :: p.1, p.2))
          | '\x7d' :: r4 => some ([(String.mk k, v)], r4)
          | _ => Option.none
        | Option.none => Option.none
      | _ => Option.none
    | Option.none => Option.none
  | _ => Option.none

/-- Parse a JSON array after the opening bracket. -/
def parseArr : Nat → List Char → Option (Val × List Char)
| 0, _ => Option.none
| f + 1, cs =>
  match skipWs cs with
  | ']' :: r => some (Val.list [], r)
  | _ => (parseItems f cs).map (fun p => (Val.list p.1, p.2))

/-- Parse the items of a JSON array (at least one item). -/
def parseItems : Nat → List Char → Option (List Val × List Char)
| 0, _ => Option.none
| f + 1, cs =>
  match parseVal f cs with
  | some (v, r) =>
    match skipWs r with
    | ',' :: r2 => (parseItems f r2).map (fun p => (v :: p.1, p.2))
    | ']' :: r2 => some ([v], r2)
    | _ => Option.none
  | Option.none => Option.none

end

/-- Model of `json.loads` on a string: parse one JSON value, require only
whitespace to remain. -/
def loads (s : String) : Option Val :=
  match parseVal (8 * (s.length + 1)) s.data with
  | some (v, rest) => if skipWs rest = [] then some v else Option.none
  | Option.none => Option.none

/-! ### The normalization engine (main.py lines 144-193) -/

/-- The dict `{"function": ..., "args": ...}` built by
`decode_input_with_web3` (main.py line 106). -/
structure DecodedCall where
  function : Val
  args : Val

/-- The fields interpolated into the final reply (main.py lines 183-191):
the user-facing deployment record. -/
structure DeploymentRecord where
  name : Val
  symbol : Val
  image : Val
  chainId : Val
  creator : Val
  contextFormatted : String

/-- Outcome of the normalization path of `handle_message`:
`notDeploy` is the "This is not a deployToken transaction" reply carrying
the observed function value, `noDeploymentConfig` the "deploymentConfig
not found" reply, `crashed` an exception swallowed by the outer
`try/except` (no reply at all), and `record` the success reply. -/
inductive NormOutcome where
| notDeploy : Val → NormOutcome
| noDeploymentConfig : NormOutcome
| crashed : NormOutcome
| record : DeploymentRecord → NormOutcome

/-- main.py lines 163-168: `json.loads(context_raw)` with the `except`
branch producing `{"context": context_raw}`. A non-string argument makes
`json.loads` raise `TypeError`, which the same `except` catches. -/
def extractEmbeddedJson (raw : Val) : Val :=
  match raw with
  | Val.str s =>
    match loads s with
    | some v => v
    | Option.none => Val.dict [("context", Val.str s)]
  | v => Val.dict [("context", v)]

/-- main.py lines 170-181: each non-empty item of a context dict becomes a
`key: value` line (`messageId` as a hyperlink); a non-dict context becomes
a single `str()` line. -/
def contextLines : Val → List String
| Val.dict fs =>
  fs.filterMap (fun p =>
    if truthy p.2 && !((pyStrip (pyStr p.2)) == "") then
      some (if p.1 = "messageId"
            then p.1 ++ ": [Link](" ++ pyStr p.2 ++ ")"
            else p.1 ++ ": " ++ pyStr p.2)
    else Option.none)
| v => [pyStr v]

/-- main.py lines 144-193: the deployToken check, deploymentConfig lookup
(line 148-151), `tokenConfig`/`rewardsConfig` extraction with `{}`
defaults (lines 153-160), context parsing and formatting (lines 163-181),
and the construction of the reply record (lines 183-191). -/
def normalizeCall (d : DecodedCall) : NormOutcome :=
  if isStrEq d.function "deployToken" then
    match pyGet d.args "deploymentConfig" with
    | Option.none => NormOutcome.crashed
    | some dc =>
      if truthy dc then
        match pyGetD dc "tokenConfig" (Val.dict []), pyGetD dc "rewardsConfig" (Val.dict []) with
        | some tc, some rc =>
          match pyGet tc "name", pyGet tc "symbol", pyGet tc "image",
                pyGet tc "originatingChainId", pyGet rc "creatorRewardRecipient",
                pyGet tc "context" with
          | some nm, some sym, some img, some cid, some crr, some ctxRaw =>
            let cj := extractEmbeddedJson ctxRaw
            NormOutcome.record
              ⟨nm, sym, img, cid, crr, String.intercalate "\n" (contextLines cj)⟩
          | _, _, _, _, _, _ => NormOutcome.crashed
        | _, _ => NormOutcome.crashed
      else NormOutcome.noDeploymentConfig
  else NormOutcome.notDeploy d.function

/-! ### The full handler (main.py lines 111-196) -/

/-- A hexadecimal-digit character, as in the character class `[a-fA-F0-9]`. -/
def isHexDigitChar (c : Char) : Bool :=
  c.isDigit || ('a' ≤ c && c ≤ 'f') || ('A' ≤ c && c ≤ 'F')

/-- The regular expression gate of main.py line 116:
`^0x[a-fA-F0-9]{40}$` on the stripped message text. -/
def isContractAddress (s : String) : Bool :=
  match s.data with
  | '0' :: 'x' :: rest => rest.length = 40 && rest.all isHexDigitChar
  | _ => false

/-- The three network collaborators of `handle_message`, abstracted:
`get_creation_txhash` (`Option.none` models its `None` failure result),
`get_transaction_data` (returning the JSON `result` value, `{}` on
failure) and `decode_input_with_web3` (`Option.none` models its `None`
failure result). -/
structure Oracles where
  getCreationTxhash : String → Option String
  getTransactionData : String → Val
  decodeFunctionInput : Val → Option DecodedCall

/-- Observable steps of `handle_message`: replies sent to the user and
calls made to the explorer / decoder. -/
inductive Action where
| reply : String → Action
| lookupCreation : String → Action
| lookupTransaction : String → Action
| decodeInput : Val → Action

/-- The reply string built at main.py lines 183-191. -/
def renderReply (r : DeploymentRecord) : String :=
  "*Token Deployment Information:*\n\n" ++
  "*Name:* `" ++ pyStr r.name ++ "`\n" ++
  "*Symbol:* `" ++ pyStr r.symbol ++ "`\n" ++
  "*Chain ID:* `" ++ pyStr r.chainId ++ "`\n" ++
  "*Image:* [Link](" ++ pyStr r.image ++ ")\n\n" ++
  "*Context:*\n" ++ r.contextFormatted ++ "\n\n" ++
  "*Creator Reward Recipient:* `" ++ pyStr r.creator ++ "`"

/-- The replies produced for each normalization outcome
(main.py lines 145, 150, 193; a swallowed exception replies nothing). -/
def renderOutcome : NormOutcome → List Action
| NormOutcome.notDeploy f =>
  [Action.reply ("This is not a deployToken transaction (function: " ++ pyStr f ++ ").")]
| NormOutcome.noDeploymentConfig =>
  [Action.reply "deploymentConfig not found in the input data."]
| NormOutcome.crashed => []
| NormOutcome.record r => [Action.reply (renderReply r)]

/-- main.py lines 111-196: strip the message, apply the address gate
(line 116, returning silently on failure), then walk the
lookup/fetch/decode/normalize pipeline, recording every observable step. -/
def handleMessage (text : String) (o : Oracles) : List Action :=
  let msg := pyStrip text
  if isContractAddress msg then
    Action.reply ("Processing contract: `" ++ msg ++ "`") :: Action.lookupCreation msg ::
      (match o.getCreationTxhash msg with
       | Option.none => [Action.reply "Could not find txhash from BaseScan."]
       | some tx =>
         if tx = "" then [Action.reply "Could not find txhash from BaseScan."]
         else
           Action.lookupTransaction tx ::
             (let td := o.getTransactionData tx
              if truthy td then
                match pyGetD td "input" (Val.str "") with
                | Option.none => []
                | some inputRaw =>
                  if truthy inputRaw then
                    Action.decodeInput inputRaw ::
                      (match o.decodeFunctionInput inputRaw with
                       | Option.none => [Action.reply "Error decoding input data."]
                       | some d => renderOutcome (normalizeCall d))
                  else [Action.reply "No input data found in the transaction."]
              else [Action.reply "Failed to retrieve transaction data from BaseScan."]))
  else []

/-! ### Raw Payload Classifier (spec §4.1)

The classifier is part of the repository's decoding engine but not of
src/main.py, so it is modelled from the specification. -/

/-- The three classifications of spec §4.1. -/
inductive RawClass where
| alreadyJson : RawClass
| hexEncodedText : RawClass
| abiBinary : RawClass
deriving DecidableEq

/-- Strip an optional `0x` prefix from a hex payload. -/
def dropHex0x (s : String) : String :=
  match s.data with
  | '0' :: 'x' :: rest => String.mk rest
  | _ => s

/-- Decode a pair-aligned hexadecimal string to bytes; `Option.none` on a
non-hex character or odd length. -/
def hexDecodeChars : List Char → Option (List Nat)
| [] => some []
| [_] => Option.none
| a :: b :: rest =>
  match hexVal? a, hexVal? b, hexDecodeChars rest with
  | some x, some y, some r => some ((16 * x + y) :: r)
  | _, _, _ => Option.none

/-- Decode a hexadecimal string to bytes. -/
def hexDecode (s : String) : Option (List Nat) := hexDecodeChars s.data

/-- Does the string begin with an opening brace? -/
def beginsWithBrace (s : String) : Bool :=
  match s.data with
  | c :: _ => c = '\x7b'
  | [] => false

/-- The Unicode replacement character U+FFFD. -/
def replChar : Char := Char.ofNat 0xFFFD

/-- Modelled from the spec: UTF-8 decoding "with replacement-character
substitution for invalid sequences" (spec §4.1). Each ill-formed byte is
replaced by U+FFFD; well-formed 1-4 byte sequences decode to their code
point. Fueled (each step consumes at least one byte, so `utf8Dec`
supplies ample fuel). -/
def utf8DecAux : Nat → List Nat → List Char
| 0, _ => []
| _ + 1, [] => []
| f + 1, b :: rest =>
  if b < 0x80 then
    Char.ofNat b :: utf8DecAux f rest
  else if b < 0xC2 then
    replChar :: utf8DecAux f rest
  else if b < 0xE0 then
    match rest with
    | c1 :: r =>
      if 0x80 ≤ c1 ∧ c1 < 0xC0 then
        Char.ofNat ((b - 0xC0) * 64 + (c1 - 0x80)) :: utf8DecAux f r
      else replChar :: utf8DecAux f rest
    | [] => [replChar]
  else if b < 0xF0 then
    match rest with
    | c1 :: c2 :: r =>
      if 0x80 ≤ c1 ∧ c1 < 0xC0 ∧ 0x80 ≤ c2 ∧ c2 < 0xC0 then
        let cp := (b - 0xE0) * 4096 + (c1 - 0x80) * 64 + (c2 - 0x80)
        if 0x800 ≤ cp ∧ ¬(0xD800 ≤ cp ∧ cp ≤ 0xDFFF) then
          Char.ofNat cp :: utf8DecAux f r
        else replChar :: utf8DecAux f rest
      else replChar :: utf8DecAux f rest
    | _ => replChar :: utf8DecAux f rest
  else if b < 0xF5 then
    match rest with
    | c1 :: c2 :: c3 :: r =>
      if 0x80 ≤ c1 ∧ c1 < 0xC0 ∧ 0x80 ≤ c2 ∧ c2 < 0xC0 ∧ 0x80 ≤ c3 ∧ c3 < 0xC0 then
        let cp := (b - 0xF0) * 262144 + (c1 - 0x80) * 4096 + (c2 - 0x80) * 64 + (c3 - 0x80)
        if 0x10000 ≤ cp ∧ cp < 0x110000 then
          Char.ofNat cp :: utf8DecAux f r
        else replChar :: utf8DecAux f rest
      else replChar :: utf8DecAux f rest
    | _ => replChar :: utf8DecAux f rest
  else replChar :: utf8DecAux f rest

/-- The text obtained from hex-decoded bytes. -/
def utf8Text (bs : List Nat) : String := String.mk (utf8DecAux (bs.length + 1) bs)

/-- Modelled from the spec: the Raw Payload Classifier (spec §4.1), which
is not part of src/main.py. If the trimmed string starts with a brace,
`alreadyJson`; otherwise strip an optional `0x` prefix, hex-decode, decode
the bytes as UTF-8 with replacement, and classify `hexEncodedText` when
the stripped decoded text starts with a brace; everything else — including
hex-decode failures — is `abiBinary`. -/
def classify (s : String) : RawClass :=
  let t := pyStrip s
  if beginsWithBrace t then RawClass.alreadyJson
  else
    match hexDecode (dropHex0x t) with
    | Option.none => RawClass.abiBinary
    | some bs =>
      if beginsWithBrace (pyStrip (utf8Text bs)) then RawClass.hexEncodedText
      else RawClass.abiBinary

/-! ### Legacy Positional Decoder (spec §4.3)

Also modelled from the specification: the legacy JSON wire shape nests
the arguments inside a `params` array whose first element is the main
tuple; index 0 of the main tuple is the token-configuration sub-array
(indices 3/4/5: metadata URL, metadata JSON text, context JSON text), and
index 4 is the rewards sub-array (index 1: creator reward recipient). -/

/-- The decode failure of spec §4.3. -/
inductive LegacyErr where
| shapeMismatch : LegacyErr
deriving DecidableEq

/-- The logical fields extracted by the legacy positional decoder, under
the synthetic names of the canonical record (spec §4.3/§4.4). -/
structure LegacyFields where
  metadataUrl : String
  metadataJson : String
  contextJson : String
  creatorRewardRecipient : String

/-- View a JSON value as an array. -/
def asList : Val → Option (List Val)
| Val.list xs => some xs
| _ => Option.none

/-- View a JSON value as a string. -/
def asStr : Val → Option String
| Val.str s => some s
| _ => Option.none

/-- Modelled from the spec: the Legacy Positional Decoder (spec §4.3),
which is not part of src/main.py. Every absent slot or wrongly-typed
value yields `shapeMismatch`; list access is total (`List.get?`), so no
index-out-of-range failure is possible. -/
def legacyDecode (j : Val) : Except LegacyErr LegacyFields :=
  match j with
  | Val.dict fs =>
    match dictLookup fs "params" with
    | some pv =>
      match
        (do
          let params ← asList pv
          let mainTuple ← (params.get? 0).bind asList
          let tokenCfg ← (mainTuple.get? 0).bind asList
          let u ← (tokenCfg.get? 3).bind asStr
          let m ← (tokenCfg.get? 4).bind asStr
          let c ← (tokenCfg.get? 5).bind asStr
          let rewardsCfg ← (mainTuple.get? 4).bind asList
          let r ← (rewardsCfg.get? 1).bind asStr
          some (LegacyFields.mk u m c r) : Option LegacyFields)
      with
      | some f => Except.ok f
      | Option.none => Except.error LegacyErr.shapeMismatch
    | Option.none => Except.error LegacyErr.shapeMismatch
  | _ => Except.error LegacyErr.shapeMismatch

/-! ### ABI Call Decoder (spec §4.2)

The ABI codec is the engine component that src/main.py delegates to the
web3 library (`contract.decode_function_input`, main.py lines 97-109), so
it is modelled from the specification: 32-byte head slots, one per
parameter, static types read in place, dynamic types resolved through an
offset into a tail region, tuples decoded recursively by declared field
order and keyed by field name. String payloads are modelled by their
UTF-8 byte sequences. The declared `deployToken` interface contains no
dynamic arrays, so the model covers the scalar/bytes/string/tuple
fragment used by that interface. -/

/-- Modelled from the spec: the recursive type tree of a function
interface (spec §3) — scalars (address, integer-of-width, boolean,
bytes, string) and named tuples. -/
inductive AbiTy where
| address : AbiTy
| uint : Nat → AbiTy
| boolTy : AbiTy
| bytesTy : AbiTy
| stringTy : AbiTy
| tuple : List (String × AbiTy) → AbiTy

/-- Modelled from the spec: decoded argument values (spec §3's `Value`
tree) — scalars and structs keyed by field name. String contents are
carried as their UTF-8 bytes. -/
inductive AVal where
| addr : Nat → AVal
| num : Nat → AVal
| boolean : Bool → AVal
| bytesV : List Nat → AVal
| strV : List Nat → AVal
| tupleV : List (String × AVal) → AVal

mutual

/-- Is the type dynamic (encoded through an offset slot)? Strings, byte
arrays and tuples containing dynamic members are dynamic. -/
def isDyn : AbiTy → Bool
| AbiTy.bytesTy => true
| AbiTy.stringTy => true
| AbiTy.tuple fs => anyDynMems fs
| _ => false

/-- Does any member of a tuple have dynamic type? -/
def anyDynMems : List (String × AbiTy) → Bool
| [] => false
| (_, t) :: rest => isDyn t || anyDynMems rest

end

mutual

/-- The in-place (head) size of a static type: scalars occupy one
32-byte slot; a static tuple is the concatenation of its members. -/
def staticSize : AbiTy → Nat
| AbiTy.tuple fs => staticSizeMems fs
| _ => 32

/-- Total head-region size of a member list: 32 bytes for each dynamic
member's offset slot, the static size for each static member. -/
def staticSizeMems : List (String × AbiTy) → Nat
| [] => 0
| (_, t) :: rest => (if isDyn t then 32 else staticSize t) + staticSizeMems rest

end

mutual

/-- Well-typedness of a value at a type: addresses fit 160 bits, integers
fit their declared width (at most 256 bits), bytes/strings hold bytes and
have an ABI-representable length, tuples match their member list. -/
def hasTy : AbiTy → AVal → Bool
| AbiTy.address, AVal.addr a => decide (a < 2 ^ 160)
| AbiTy.uint w, AVal.num n => decide (w ≤ 256) && decide (n < 2 ^ w)
| AbiTy.boolTy, AVal.boolean _ => true
| AbiTy.bytesTy, AVal.bytesV bs =>
  bs.all (fun b => decide (b < 256)) && decide (bs.length < 2 ^ 256)
| AbiTy.stringTy, AVal.strV bs =>
  bs.all (fun b => decide (b < 256)) && decide (bs.length < 2 ^ 256)
| AbiTy.tuple fs, AVal.tupleV vs => hasTyMems fs vs
| _, _ => false

/-- Well-typedness of tuple members: names agree pointwise. -/
def hasTyMems : List (String × AbiTy) → List (String × AVal) → Bool
| [], [] => true
| (n, t) :: fs, (m, v) :: vs => decide (n = m) && hasTy t v && hasTyMems fs vs
| _, _ => false

end

/-- Big-endian byte representation of `n` in `k` bytes (mod `256 ^ k`). -/
def beBytes : Nat → Nat → List Nat
| 0, _ => []
| k + 1, n => beBytes k (n / 256) ++ [n % 256]

/-- One 32-byte ABI word. -/
def word (n : Nat) : List Nat := beBytes 32 n

/-- Pad a byte payload on the right to a 32-byte boundary. -/
def pad32 (bs : List Nat) : List Nat :=
  bs ++ List.replicate ((32 - bs.length % 32) % 32) 0

mutual

/-- Modelled from the spec: canonical ABI encoding of a value at a type
(spec §4.2 read in reverse): scalars as one word, bytes/strings as a
length word plus padded payload, tuples as a head region (static members
in place, dynamic members as offset words relative to the tuple start)
followed by a tail region holding the dynamic members' encodings. -/
def enc : AbiTy → AVal → List Nat
| AbiTy.address, AVal.addr a => word a
| AbiTy.uint _, AVal.num n => word n
| AbiTy.boolTy, AVal.boolean b => word (if b then 1 else 0)
| AbiTy.bytesTy, AVal.bytesV bs => word bs.length ++ pad32 bs
| AbiTy.stringTy, AVal.strV bs => word bs.length ++ pad32 bs
| AbiTy.tuple fs, AVal.tupleV vs =>
  (encMems fs vs (staticSizeMems fs)).1 ++ (encMems fs vs (staticSizeMems fs)).2
| _, _ => []

/-- Heads and tails of an encoded member sequence; `tailOff` is the
offset (relative to the tuple start) at which the next tail will land. -/
def encMems : List (String × AbiTy) → List (String × AVal) → Nat → List Nat × List Nat
| [], _, _ => ([], [])
| _ :: _, [], _ => ([], [])
| (_, t) :: fs, (_, v) :: vs, tailOff =>
  if isDyn t then
    (word tailOff ++ (encMems fs vs (tailOff + (enc t v).length)).1,
     enc t v ++ (encMems fs vs (tailOff + (enc t v).length)).2)
  else
    (enc t v ++ (encMems fs vs tailOff).1, (encMems fs vs tailOff).2)

end

/-- The recoverable decode failures of spec §4.2. -/
inductive DecErr where
| truncatedData : DecErr
| invalidOffset : DecErr
deriving DecidableEq

/-- Numeric value of a big-endian byte string. -/
def wordVal (bs : List Nat) : Nat := bs.foldl (fun acc b => acc * 256 + b) 0

/-- The `len` bytes of `buf` starting at `pos`. -/
def slice (buf : List Nat) (pos len : Nat) : List Nat := (buf.drop pos).take len

/-- Read one 32-byte word at `pos`; `truncatedData` when the buffer is
too short. -/
def readWord (buf : List Nat) (pos : Nat) : Except DecErr Nat :=
  if pos + 32 ≤ buf.length then Except.ok (wordVal (slice buf pos 32))
  else Except.error DecErr.truncatedData

mutual

/-- Modelled from the spec: ABI decoding of a value of type `t` whose
data begins at `pos` (for dynamic types, `pos` is where the offset slot
pointed). Truncation and out-of-buffer offsets yield typed errors, never
exceptions (spec §4.2). -/
def dec : AbiTy → List Nat → Nat → Except DecErr AVal
| AbiTy.address, buf, pos =>
  match readWord buf pos with
  | Except.ok w => Except.ok (AVal.addr w)
  | Except.error e => Except.error e
| AbiTy.uint _, buf, pos =>
  match readWord buf pos with
  | Except.ok w => Except.ok (AVal.num w)
  | Except.error e => Except.error e
| AbiTy.boolTy, buf, pos =>
  match readWord buf pos with
  | Except.ok w => Except.ok (AVal.boolean (decide (w ≠ 0)))
  | Except.error e => Except.error e
| AbiTy.bytesTy, buf, pos =>
  match readWord buf pos with
  | Except.ok n =>
    if pos + 32 + n ≤ buf.length then Except.ok (AVal.bytesV (slice buf (pos + 32) n))
    else Except.error DecErr.truncatedData
  | Except.error e => Except.error e
| AbiTy.stringTy, buf, pos =>
  match readWord buf pos with
  | Except.ok n =>
    if pos + 32 + n ≤ buf.length then Except.ok (AVal.strV (slice buf (pos + 32) n))
    else Except.error DecErr.truncatedData
  | Except.error e => Except.error e
| AbiTy.tuple fs, buf, pos =>
  match decMems fs buf pos pos with
  | Except.ok vs => Except.ok (AVal.tupleV vs)
  | Except.error e => Except.error e

/-- Decode a member sequence: `base` is the tuple start (offsets are
relative to it), `hp` the position of the current head slot. -/
def decMems : List (String × AbiTy) → List Nat → Nat → Nat → Except DecErr (List (String × AVal))
| [], _, _, _ => Except.ok []
| (n, t) :: fs, buf, base, hp =>
  if isDyn t then
    match readWord buf hp with
    | Except.ok off =>
      if base + off ≤ buf.length then
        match dec t buf (base + off) with
        | Except.ok v =>
          match decMems fs buf base (hp + 32) with
          | Except.ok vs => Except.ok ((n, v) :: vs)
          | Except.error e => Except.error e
        | Except.error e => Except.error e
      else Except.error DecErr.invalidOffset
    | Except.error e => Except.error e
  else
    match dec t buf hp with
    | Except.ok v =>
      match decMems fs buf base (hp + staticSize t) with
      | Except.ok vs => Except.ok ((n, v) :: vs)
      | Except.error e => Except.error e
    | Except.error e => Except.error e

end

/-- Modelled from the spec: the declared `deployToken` interface
(spec §4.4 named-struct shape): `deploymentConfig` is a tuple holding
`tokenConfig` (name, symbol, image, metadata, context, originating chain
id) and `rewardsConfig` (creator reward recipient). -/
def deployTokenParams : List (String × AbiTy) :=
  [("deploymentConfig", AbiTy.tuple
    [("tokenConfig", AbiTy.tuple
      [("name", AbiTy.stringTy), ("symbol", AbiTy.stringTy), ("image", AbiTy.stringTy),
       ("metadata", AbiTy.stringTy), ("context", AbiTy.stringTy),
       ("originatingChainId", AbiTy.uint 256)]),
     ("rewardsConfig", AbiTy.tuple [("creatorRewardRecipient", AbiTy.address)])])]

/-- ABI-encode a `deployToken` argument list (single-function mode:
the interface is trusted, no selector). -/
def encodeCall (vs : List (String × AVal)) : List Nat :=
  (encMems deployTokenParams vs (staticSizeMems deployTokenParams)).1 ++
    (encMems deployTokenParams vs (staticSizeMems deployTokenParams)).2

/-- ABI-decode a `deployToken` payload back to its argument list. -/
def decodeCall (buf : List Nat) : Except DecErr (List (String × AVal)) :=
  decMems deployTokenParams buf 0 0

/-- The well-formed `deployToken` argument tree of spec §8
(`name = symbol = "DOGE"`, JSON metadata and context, a creator reward
recipient address), strings as their UTF-8 bytes. -/
def deployTokenExample : List (String × AVal) :=
  [("deploymentConfig", AVal.tupleV
    [("tokenConfig", AVal.tupleV
      [("name", AVal.strV [68, 79, 71, 69]), ("symbol", AVal.strV [68, 79, 71, 69]),
       ("image", AVal.strV [105]),
       ("metadata", AVal.strV [123, 34, 97, 34, 58, 49, 125]),
       ("context", AVal.strV [123, 34, 105, 100, 34, 58, 34, 120, 121, 122, 34, 125]),
       ("originatingChainId", AVal.num 8453)]),
     ("rewardsConfig", AVal.tupleV [("creatorRewardRecipient", AVal.addr 11259375)])])]

/-! ### Helper lemmas -/

/-- A successful dict lookup exhibits its key/value pair as a member. -/
theorem dictLookup_mem {fs : List (String × Val)} {k : String} {v : Val}
    (h : dictLookup fs k = some v) : (k, v) ∈ fs := by
  induction fs with
  | nil => simp [dictLookup] at h
  | cons p rest ih =>
    obtain ⟨k', v'⟩ := p
    by_cases hk : k' = k
    · subst hk
      simp [dictLookup] at h
      subst h
      exact List.mem_cons_self _ _
    · simp [dictLookup, hk] at h
      exact List.mem_cons_of_mem _ (ih h)

/-- `beBytes` always produces exactly `k` bytes. -/
theorem beBytes_length (k : Nat) : ∀ n, (beBytes k n).length = k := by
  induction k with
  | zero => intro n; rfl
  | succ k ih => intro n; simp [beBytes, ih]

/-- A word is 32 bytes long. -/
theorem word_length (n : Nat) : (word n).length = 32 := beBytes_length 32 n

/-- Folding the byte-accumulation step over a big-endian representation. -/
theorem foldl_beBytes (k : Nat) : ∀ n a : Nat,
    List.foldl (fun acc b => acc * 256 + b) a (beBytes k n) = a * 256 ^ k + n % 256 ^ k := by
  induction k with
  | zero => intro n a; simp [beBytes, Nat.mod_one]
  | succ k ih =>
    intro n a
    rw [beBytes, List.foldl_append, ih (n / 256) a]
    simp only [List.foldl]
    have h1 : (256 : Nat) ^ (k + 1) = 256 * 256 ^ k := by ring
    have h2 : n % (256 * 256 ^ k) = n % 256 + 256 * (n / 256 % 256 ^ k) := Nat.mod_mul
    rw [h1, h2]
    ring

/-- Reading back the numeric value of a word below `2 ^ 256`. -/
theorem wordVal_word {n : Nat} (h : n < 2 ^ 256) : wordVal (word n) = n := by
  have hp : (256 : Nat) ^ 32 = 2 ^ 256 := by norm_num
  unfold wordVal word
  rw [foldl_beBytes 32 n 0, Nat.zero_mul, Nat.zero_add, Nat.mod_eq_of_lt (hp ▸ h)]

/-- Slicing an embedded segment out of a concatenation. -/
theorem slice_at (buf pre l post : List Nat) (q : Nat)
    (hbuf : buf = pre ++ l ++ post) (hq : q = pre.length) :
    slice buf q l.length = l := by
  subst hbuf hq
  unfold slice
  rw [List.append_assoc, List.drop_left, List.take_left]

/-- Reading an embedded word out of a concatenation. -/
theorem readWord_at (buf pre post : List Nat) (n q : Nat)
    (hbuf : buf = pre ++ word n ++ post) (hq : q = pre.length) (hn : n < 2 ^ 256) :
    readWord buf q = Except.ok n := by
  have hlen : buf.length = pre.length + 32 + post.length := by
    subst hbuf
    simp [word_length]
    omega
  have hs : slice buf q 32 = word n := by
    have h := slice_at buf pre (word n) post q hbuf hq
    rwa [word_length] at h
  unfold readWord
  rw [if_pos (by omega), hs, wordVal_word hn]

mutual

/-- A static value encodes into exactly its static size. -/
theorem enc_length_static (t : AbiTy) (v : AVal)
    (hty : hasTy t v = true) (hd : isDyn t = false) :
    (enc t v).length = staticSize t := by
  cases t with
  | address =>
    cases v <;> simp [hasTy] at hty
    simp [enc, staticSize, word_length]
  | uint w =>
    cases v <;> simp [hasTy] at hty
    simp [enc, staticSize, word_length]
  | boolTy =>
    cases v <;> simp [hasTy] at hty
    simp [enc, staticSize, word_length]
  | bytesTy => simp [isDyn] at hd
  | stringTy => simp [isDyn] at hd
  | tuple fs =>
    cases v <;> simp [hasTy] at hty
    rename_i vs
    have hnd : anyDynMems fs = false := by simpa [isDyn] using hd
    simp [enc, List.length_append, staticSize,
          encMems_heads_length fs vs (staticSizeMems fs) hty,
          encMems_tails_static fs vs (staticSizeMems fs) hty hnd]

/-- The head region of an encoded member sequence has the declared
head-region size, whatever the tail offset. -/
theorem encMems_heads_length (fs : List (String × AbiTy)) (vs : List (String × AVal)) (o : Nat)
    (hty : hasTyMems fs vs = true) :
    (encMems fs vs o).1.length = staticSizeMems fs := by
  cases fs with
  | nil => simp [encMems, staticSizeMems]
  | cons pfs fs' =>
    obtain ⟨nm, t⟩ := pfs
    cases vs with
    | nil => simp [hasTyMems] at hty
    | cons q vs' =>
      obtain ⟨m, v⟩ := q
      simp only [hasTyMems, Bool.and_eq_true, decide_eq_true_eq] at hty
      obtain ⟨⟨hnm, htv⟩, htys⟩ := hty
      by_cases hdt : isDyn t = true
      · simp [encMems, hdt, staticSizeMems, word_length, List.length_append,
              encMems_heads_length fs' vs' (o + (enc t v).length) htys]
      · have hdf : isDyn t = false := by simpa using hdt
        simp [encMems, hdf, staticSizeMems, List.length_append,
              encMems_heads_length fs' vs' o htys,
              enc_length_static t v htv hdf]

/-- A member sequence with no dynamic member has an empty tail region. -/
theorem encMems_tails_static (fs : List (String × AbiTy)) (vs : List (String × AVal)) (o : Nat)
    (hty : hasTyMems fs vs = true) (hnd : anyDynMems fs = false) :
    (encMems fs vs o).2 = [] := by
  cases fs with
  | nil => simp [encMems]
  | cons pfs fs' =>
    obtain ⟨nm, t⟩ := pfs
    cases vs with
    | nil => simp [hasTyMems] at hty
    | cons q vs' =>
      obtain ⟨m, v⟩ := q
      simp only [hasTyMems, Bool.and_eq_true, decide_eq_true_eq] at hty
      obtain ⟨⟨hnm, htv⟩, htys⟩ := hty
      simp only [anyDynMems, Bool.or_eq_false_iff] at hnd
      simp [encMems, hnd.1, encMems_tails_static fs' vs' o htys hnd.2]

end

mutual

/-- Decoding an embedded canonical encoding recovers the value: if the
buffer holds `enc t v` at position `p` (with arbitrary surroundings) and
the value is well-typed, `dec` returns exactly `v`. -/
theorem dec_enc (t : AbiTy) (v : AVal) (buf pre post : List Nat) (p : Nat)
    (hty : hasTy t v = true) (hbuf : buf = pre ++ enc t v ++ post) (hp : p = pre.length)
    (hlen : (enc t v).length < 2 ^ 256) :
    dec t buf p = Except.ok v := by
  cases t with
  | address =>
    cases v <;> simp [hasTy] at hty
    rename_i a
    have ha : a < 2 ^ 256 := lt_of_lt_of_le hty (by norm_num)
    have hr := readWord_at buf pre post a p (by simpa [enc] using hbuf) hp ha
    simp [dec, hr]
  | uint w =>
    cases v <;> simp [hasTy] at hty
    rename_i n
    have hn : n < 2 ^ 256 :=
      lt_of_lt_of_le hty.2 (Nat.pow_le_pow_right (by norm_num) hty.1)
    have hr := readWord_at buf pre post n p (by simpa [enc] using hbuf) hp hn
    simp [dec, hr]
  | boolTy =>
    cases v <;> simp [hasTy] at hty
    rename_i b
    have hb : (if b then 1 else 0) < 2 ^ 256 := by cases b <;> norm_num
    have hr := readWord_at buf pre post (if b then 1 else 0) p (by simpa [enc] using hbuf) hp hb
    cases b <;> simp [dec, hr]
  | bytesTy =>
    cases v <;> simp [hasTy] at hty
    rename_i bs
    have hr := readWord_at buf pre (pad32 bs ++ post) bs.length p
      (by simp [hbuf, enc, List.append_assoc]) hp hty.2
    have hle : p + 32 + bs.length ≤ buf.length := by
      subst hp hbuf
      simp [enc, pad32, word_length, List.length_append]
      omega
    have hsl : slice buf (p + 32) bs.length = bs :=
      slice_at buf (pre ++ word bs.length) bs
        (List.replicate ((32 - bs.length % 32) % 32) 0 ++ post) (p + 32)
        (by simp [hbuf, enc, pad32, List.append_assoc])
        (by simp [hp, word_length, List.length_append])
    simp [dec, hr, hle, hsl]
  | stringTy =>
    cases v <;> simp [hasTy] at hty
    rename_i bs
    have hr := readWord_at buf pre (pad32 bs ++ post) bs.length p
      (by simp [hbuf, enc, List.append_assoc]) hp hty.2
    have hle : p + 32 + bs.length ≤ buf.length := by
      subst hp hbuf
      simp [enc, pad32, word_length, List.length_append]
      omega
    have hsl : slice buf (p + 32) bs.length = bs :=
      slice_at buf (pre ++ word bs.length) bs
        (List.replicate ((32 - bs.length % 32) % 32) 0 ++ post) (p + 32)
        (by simp [hbuf, enc, pad32, List.append_assoc])
        (by simp [hp, word_length, List.length_append])
    simp [dec, hr, hle, hsl]
  | tuple fs =>
    cases v <;> simp [hasTy] at hty
    rename_i vs
    have hh := encMems_heads_length fs vs (staticSizeMems fs) hty
    have hbound :
        staticSizeMems fs + (encMems fs vs (staticSizeMems fs)).2.length < 2 ^ 256 := by
      simp only [enc, List.length_append] at hlen
      omega
    have hmain := decMems_enc fs vs pre [] [] post buf p p (staticSizeMems fs) hty
      (by simp)
      (by simp [hbuf, enc, List.append_assoc])
      hp
      (by simp)
      hbound
    simp [dec, hmain]

/-- Decoding the member sequence of an encoded tuple layout: the buffer
holds the remaining heads at `hp` and the remaining tails at
`base + tailOff`, with `tailOff` pointing exactly past the already-laid
part of the layout. -/
theorem decMems_enc (fs : List (String × AbiTy)) (vs : List (String × AVal))
    (preB doneH doneT post buf : List Nat) (base hp tailOff : Nat)
    (hty : hasTyMems fs vs = true)
    (htoff : tailOff = doneH.length + staticSizeMems fs + doneT.length)
    (hbuf : buf = preB ++ doneH ++ (encMems fs vs tailOff).1 ++ doneT ++
      (encMems fs vs tailOff).2 ++ post)
    (hbase : base = preB.length)
    (hhp : hp = base + doneH.length)
    (hbound : tailOff + (encMems fs vs tailOff).2.length < 2 ^ 256) :
    decMems fs buf base hp = Except.ok vs := by
  cases fs with
  | nil =>
    cases vs with
    | nil => simp [decMems]
    | cons q vs' => simp [hasTyMems] at hty
  | cons pfs fs' =>
    obtain ⟨nm, t⟩ := pfs
    cases vs with
    | nil => simp [hasTyMems] at hty
    | cons q vs' =>
      obtain ⟨m, v⟩ := q
      simp only [hasTyMems, Bool.and_eq_true, decide_eq_true_eq] at hty
      obtain ⟨⟨hnm, htv⟩, htys⟩ := hty
      subst hnm
      by_cases hdt : isDyn t = true
      · -- dynamic member: offset word in the head, payload in the tail
        have hE : encMems ((nm, t) :: fs') ((nm, v) :: vs') tailOff =
            (word tailOff ++ (encMems fs' vs' (tailOff + (enc t v).length)).1,
             enc t v ++ (encMems fs' vs' (tailOff + (enc t v).length)).2) := by
          simp [encMems, hdt]
        rw [hE] at hbuf hbound
        simp only [List.length_append] at hbound
        have hAlen : (encMems fs' vs' (tailOff + (enc t v).length)).1.length =
            staticSizeMems fs' := encMems_heads_length fs' vs' _ htys
        have hssm : staticSizeMems ((nm, t) :: fs') = 32 + staticSizeMems fs' := by
          simp [staticSizeMems, hdt]
        rw [hssm] at htoff
        have hr : readWord buf hp = Except.ok tailOff :=
          readWord_at buf (preB ++ doneH)
            ((encMems fs' vs' (tailOff + (enc t v).length)).1 ++ doneT ++
              enc t v ++ (encMems fs' vs' (tailOff + (enc t v).length)).2 ++ post)
            tailOff hp
            (by rw [hbuf]; simp [List.append_assoc])
            (by simp [hhp, hbase, List.length_append])
            (by omega)
        have hoff : base + tailOff ≤ buf.length := by
          rw [hbuf]
          simp only [List.length_append, word_length, hAlen]
          omega
        have hv : dec t buf (base + tailOff) = Except.ok v :=
          dec_enc t v buf
            (preB ++ doneH ++ word tailOff ++
              (encMems fs' vs' (tailOff + (enc t v).length)).1 ++ doneT)
            ((encMems fs' vs' (tailOff + (enc t v).length)).2 ++ post)
            (base + tailOff) htv
            (by rw [hbuf]; simp [List.append_assoc])
            (by simp only [List.length_append, word_length, hAlen]; omega)
            (by omega)
        have hrest : decMems fs' buf base (hp + 32) = Except.ok vs' :=
          decMems_enc fs' vs' preB (doneH ++ word tailOff) (doneT ++ enc t v) post buf
            base (hp + 32) (tailOff + (enc t v).length) htys
            (by simp only [List.length_append, word_length]; omega)
            (by rw [hbuf]; simp [List.append_assoc])
            hbase
            (by simp only [List.length_append, word_length]; omega)
            (by omega)
        simp [decMems, hdt, hr, hoff, hv, hrest]
      · -- static member: encoded in place in the head region
        have hdf : isDyn t = false := by simpa using hdt
        have hE : encMems ((nm, t) :: fs') ((nm, v) :: vs') tailOff =
            (enc t v ++ (encMems fs' vs' tailOff).1, (encMems fs' vs' tailOff).2) := by
          simp [encMems, hdf]
        rw [hE] at hbuf hbound
        have henc : (enc t v).length = staticSize t := enc_length_static t v htv hdf
        have hssm : staticSizeMems ((nm, t) :: fs') = staticSize t + staticSizeMems fs' := by
          simp [staticSizeMems, hdf]
        rw [hssm] at htoff
        have hv : dec t buf hp = Except.ok v :=
          dec_enc t v buf (preB ++ doneH)
            ((encMems fs' vs' tailOff).1 ++ doneT ++ (encMems fs' vs' tailOff).2 ++ post)
            hp htv
            (by rw [hbuf]; simp [List.append_assoc])
            (by simp [hhp, hbase, List.length_append])
            (by omega)
        have hrest : decMems fs' buf base (hp + staticSize t) = Except.ok vs' :=
          decMems_enc fs' vs' preB (doneH ++ enc t v) doneT post buf
            base (hp + staticSize t) tailOff htys
            (by simp only [List.length_append, henc]; omega)
            (by rw [hbuf]; simp [List.append_assoc])
            hbase
            (by simp only [List.length_append, henc]; omega)
            hbound
        simp [decMems, hdf, hv, hrest]

end

/-- Claim C8 (confirmed, modelled from spec §4.2): for every argument
tree valid under the declared `deployToken` interface (and of
ABI-representable total size), ABI-encoding the arguments and decoding
the resulting payload yields values equal to the original arguments. -/
theorem c8_roundtrip (vs : List (String × AVal))
    (hty : hasTyMems deployTokenParams vs = true)
    (hlen : (encodeCall vs).length < 2 ^ 256) :
    decodeCall (encodeCall vs) = Except.ok vs := by
  have hh := encMems_heads_length deployTokenParams vs (staticSizeMems deployTokenParams) hty
  have hlen' : staticSizeMems deployTokenParams +
      (encMems deployTokenParams vs (staticSizeMems deployTokenParams)).2.length < 2 ^ 256 := by
    simp only [encodeCall, List.length_append, hh] at hlen
    omega
  exact decMems_enc deployTokenParams vs [] [] [] [] (encodeCall vs) 0 0
    (staticSizeMems deployTokenParams) hty
    (by simp)
    (by simp [encodeCall])
    rfl
    (by simp)
    hlen'

set_option maxRecDepth 40000 in
/-- Witness for C8 at the spec §8 `deployToken` example arguments. -/
theorem c8_witness :
    hasTyMems deployTokenParams deployTokenExample = true ∧
    decodeCall (encodeCall deployTokenExample) = Except.ok deployTokenExample :=
  ⟨rfl, c8_roundtrip deployTokenExample rfl (by decide)⟩

/-! ### Claim theorems -/

/-- Claim C2 (confirmed): for every decoded call whose function name is
present (a string) and differs from `"deployToken"`, normalization fails
with the unsupported-function outcome carrying the observed name
(main.py lines 144-146), whatever the shape of the arguments. -/
theorem c2_unsupported_function (f : String) (args : Val) (hf : f ≠ "deployToken") :
    normalizeCall ⟨Val.str f, args⟩ = NormOutcome.notDeploy (Val.str f) := by
  simp [normalizeCall, isStrEq, hf]

/-- Witness for C2 at `function_name = "transfer"`. -/
theorem c2_witness :
    normalizeCall ⟨Val.str "transfer", Val.dict []⟩ = NormOutcome.notDeploy (Val.str "transfer") :=
  c2_unsupported_function "transfer" (Val.dict []) (by decide)

/-- Claim C3 (confirmed): the embedded-JSON extraction applied to the
context field (main.py lines 163-168) returns the parsed JSON value when
parsing succeeds, and on any parse failure returns the original raw
string unchanged, wrapped under the `"context"` key that flags the
failure — never an empty result and never a dropped value. -/
theorem c3_extractor (s : String) :
    (∀ v, loads s = some v → extractEmbeddedJson (Val.str s) = v) ∧
    (loads s = Option.none →
      extractEmbeddedJson (Val.str s) = Val.dict [("context", Val.str s)]) := by
  constructor
  · intro v hv
    simp [extractEmbeddedJson, hv]
  · intro hv
    simp [extractEmbeddedJson, hv]

/-- Witness for C3: a successful parse returns the parsed object, and the
failing input from spec §8 returns the raw string wrapped unchanged. -/
theorem c3_witness :
    extractEmbeddedJson (Val.str "\x7b\"id\": 1\x7d") = Val.dict [("id", Val.int 1)] ∧
    extractEmbeddedJson (Val.str "\x7bnot json") =
      Val.dict [("context", Val.str "\x7bnot json")] :=
  ⟨(c3_extractor "\x7b\"id\": 1\x7d").1 (Val.dict [("id", Val.int 1)]) rfl,
   (c3_extractor "\x7bnot json").2 rfl⟩

/-- Counterexample to Claim C1 as stated: a decoded `deployToken` call
whose arguments have a `deploymentConfig` with a `tokenConfig` but **no
`rewardsConfig`** still produces a deployment record — a partially-filled
record whose creator reward recipient is `None` — instead of a typed
failure, because main.py lines 153-154 default missing substructures to
`{}`. -/
theorem c1_counterexample :
    normalizeCall
      ⟨Val.str "deployToken",
       Val.dict [("deploymentConfig",
         Val.dict [("tokenConfig",
           Val.dict [("name", Val.str "T"), ("symbol", Val.str "TK"),
                     ("image", Val.str "img"), ("originatingChainId", Val.int 8453),
                     ("context", Val.str "\x7b\"id\": \"xy\"\x7d")])])]⟩
    = NormOutcome.record
        ⟨Val.str "T", Val.str "TK", Val.str "img", Val.int 8453, Val.none, "id: xy"⟩ := by
  rfl

/-- Claim C1 (corrected): a deployment record is only produced when the
function name equals `"deployToken"` and the `deploymentConfig` argument
is present and truthy; the `token` and `rewards` substructures are *not*
required to exist (missing ones are defaulted to `{}`, so the record can
be partially filled, e.g. with an absent rewards recipient). -/
theorem c1_record_conditions (d : DecodedCall) (r : DeploymentRecord)
    (h : normalizeCall d = NormOutcome.record r) :
    isStrEq d.function "deployToken" = true ∧
    ∃ dc, pyGet d.args "deploymentConfig" = some dc ∧ truthy dc = true := by
  unfold normalizeCall at h
  split at h
  · rename_i hf
    split at h
    · simp at h
    · rename_i dc hdc
      split at h
      · rename_i ht
        exact ⟨by simpa using hf, dc, hdc, by simpa using ht⟩
      · simp at h
  · simp at h

/-- Witness for C1 (amended) at a fully-populated `deployToken` call. -/
theorem c1_witness :
    isStrEq (Val.str "deployToken") "deployToken" = true ∧
    ∃ dc,
      pyGet (Val.dict [("deploymentConfig",
        Val.dict [("tokenConfig",
          Val.dict [("name", Val.str "N"), ("symbol", Val.str "S"),
                    ("image", Val.str "i"), ("originatingChainId", Val.int 1),
                    ("context", Val.str "x")]),
          ("rewardsConfig", Val.dict [("creatorRewardRecipient", Val.str "0xC")])])])
        "deploymentConfig" = some dc ∧ truthy dc = true :=
  c1_record_conditions
    ⟨Val.str "deployToken",
     Val.dict [("deploymentConfig",
       Val.dict [("tokenConfig",
         Val.dict [("name", Val.str "N"), ("symbol", Val.str "S"),
                   ("image", Val.str "i"), ("originatingChainId", Val.int 1),
                   ("context", Val.str "x")]),
         ("rewardsConfig", Val.dict [("creatorRewardRecipient", Val.str "0xC")])])]⟩
    ⟨Val.str "N", Val.str "S", Val.str "i", Val.int 1, Val.str "0xC", "context: x"⟩
    rfl

/-- Counterexample to Claim C4 as stated: a named-struct call missing
`tokenConfig.symbol` does **not** fail with a `MissingFields` error — it
produces a deployment record whose symbol is `None`, because main.py
lines 156-160 read every field with `dict.get` and never accumulate
missing-field errors. -/
theorem c4_counterexample :
    normalizeCall
      ⟨Val.str "deployToken",
       Val.dict [("deploymentConfig",
         Val.dict [("tokenConfig",
           Val.dict [("name", Val.str "Tok"), ("image", Val.str "i"),
                     ("originatingChainId", Val.int 1), ("context", Val.str "c")]),
           ("rewardsConfig", Val.dict [("creatorRewardRecipient", Val.str "0xR")])])]⟩
    = NormOutcome.record
        ⟨Val.str "Tok", Val.none, Val.str "i", Val.int 1, Val.str "0xR", "context: c"⟩ := by
  rfl

/-- Claim C4 (corrected): a named-struct call with missing required
fields does not produce any `MissingFields` failure; each missing field
is read as `None` via `dict.get` and a record is still emitted — in
particular a call missing only `tokenConfig.symbol` yields a record with
`symbol = None`. -/
theorem c4_missing_symbol_defaults (tcf rcf : List (String × Val))
    (h : dictLookup tcf "symbol" = Option.none) :
    ∃ r,
      normalizeCall
        ⟨Val.str "deployToken",
         Val.dict [("deploymentConfig",
           Val.dict [("tokenConfig", Val.dict tcf), ("rewardsConfig", Val.dict rcf)])]⟩
      = NormOutcome.record r ∧ r.symbol = Val.none := by
  refine ⟨_, rfl, ?_⟩
  show (dictLookup tcf "symbol").getD Val.none = Val.none
  rw [h]
  rfl

/-- Witness for C4 (amended) at a concrete token config missing `symbol`. -/
theorem c4_witness :
    ∃ r,
      normalizeCall
        ⟨Val.str "deployToken",
         Val.dict [("deploymentConfig",
           Val.dict [("tokenConfig", Val.dict [("name", Val.str "A")]),
                     ("rewardsConfig", Val.dict [])])]⟩
      = NormOutcome.record r ∧ r.symbol = Val.none :=
  c4_missing_symbol_defaults [("name", Val.str "A")] [] rfl

/-- Counterexample to Claim C7 as stated: when the context parses to an
object **without** an `id` field, no `context_id` appears anywhere on the
record and no "not available" marker is emitted — the record's context
section is just the formatted non-empty entries (here `a: hello`). -/
theorem c7_counterexample :
    normalizeCall
      ⟨Val.str "deployToken",
       Val.dict [("deploymentConfig",
         Val.dict [("tokenConfig",
           Val.dict [("name", Val.str "N"), ("symbol", Val.str "S"),
                     ("image", Val.str "i"), ("originatingChainId", Val.int 1),
                     ("context", Val.str "\x7b\"a\": \"hello\"\x7d")]),
           ("rewardsConfig", Val.dict [("creatorRewardRecipient", Val.str "0xR")])])]⟩
    = NormOutcome.record
        ⟨Val.str "N", Val.str "S", Val.str "i", Val.int 1, Val.str "0xR", "a: hello"⟩ := by
  rfl

/-- Claim C7 (corrected): an `id` field of a parsed context object is
surfaced only as a formatted `id: value` line among the context lines of
the record (main.py lines 170-181) — not as a first-class `context_id`
field — and an absent `id` yields no line and no "not available" marker. -/
theorem c7_id_line (cf : List (String × Val)) (v : String)
    (hlk : dictLookup cf "id" = some (Val.str v)) (htr : pyStrip v ≠ "") :
    ("id: " ++ v) ∈ contextLines (Val.dict cf) := by
  have hv : v ≠ "" := by
    intro h
    subst h
    exact htr rfl
  have hmem : ("id", Val.str v) ∈ cf := dictLookup_mem hlk
  unfold contextLines
  refine List.mem_filterMap.mpr ⟨("id", Val.str v), hmem, ?_⟩
  simp [truthy, pyStr, hv, htr]

/-- Witness for C7 (amended) at a context containing `id = "42"`. -/
theorem c7_witness :
    ("id: " ++ "42") ∈ contextLines (Val.dict [("a", Val.str "x"), ("id", Val.str "42")]) :=
  c7_id_line [("a", Val.str "x"), ("id", Val.str "42")] "42" rfl (by decide)

/-- Claim C9 (confirmed): normalization — including embedded-JSON
extraction and context formatting — is deterministic: two runs of
`normalizeCall` on the same decoded call that produce records produce
equal records (the engine is a pure function with no hidden state). -/
theorem c9_deterministic (d : DecodedCall) (r1 r2 : DeploymentRecord)
    (h1 : normalizeCall d = NormOutcome.record r1)
    (h2 : normalizeCall d = NormOutcome.record r2) : r1 = r2 := by
  rw [h1] at h2
  injection h2

/-- Witness for C9 at a concrete decoded call normalized twice. -/
theorem c9_witness :
    (⟨Val.none, Val.none, Val.none, Val.none, Val.none, ""⟩ : DeploymentRecord) =
      ⟨Val.none, Val.none, Val.none, Val.none, Val.none, ""⟩ :=
  c9_deterministic
    ⟨Val.str "deployToken",
     Val.dict [("deploymentConfig",
       Val.dict [("tokenConfig", Val.dict []), ("rewardsConfig", Val.dict [])])]⟩
    ⟨Val.none, Val.none, Val.none, Val.none, Val.none, ""⟩
    ⟨Val.none, Val.none, Val.none, Val.none, Val.none, ""⟩
    rfl rfl

/-- Claim C10 (confirmed): the input gate of main.py line 116 — when the
stripped message text does not match `^0x[a-fA-F0-9]{40}$`, the handler
returns silently: no reply is sent and no explorer lookup or decoding is
performed. -/
theorem c10_address_gate (text : String) (o : Oracles)
    (h : isContractAddress (pyStrip text) = false) : handleMessage text o = [] := by
  simp [handleMessage, h]

/-- Witness for C10 at the non-address message `"hello"`. -/
theorem c10_witness :
    handleMessage "hello"
      ⟨fun _ => Option.none, fun _ => Val.dict [], fun _ => Option.none⟩ = [] :=
  c10_address_gate "hello" ⟨fun _ => Option.none, fun _ => Val.dict [], fun _ => Option.none⟩ rfl

/-- Claim C5 (confirmed, modelled from spec §4.1): the raw payload
classifier is total — every string yields exactly one of the three
classifications — and follows the spec's rule: a trimmed string starting
with a brace is `alreadyJson`; otherwise a hex-decodable remainder whose
replacement-decoded text starts with a brace is `hexEncodedText`; and
everything else, including hex-decode failures, is `abiBinary`. -/
theorem c5_classifier_total (s : String) :
    (classify s = RawClass.alreadyJson ∨ classify s = RawClass.hexEncodedText ∨
      classify s = RawClass.abiBinary) ∧
    (beginsWithBrace (pyStrip s) = true → classify s = RawClass.alreadyJson) ∧
    (beginsWithBrace (pyStrip s) = false → hexDecode (dropHex0x (pyStrip s)) = Option.none →
      classify s = RawClass.abiBinary) ∧
    (∀ bs, beginsWithBrace (pyStrip s) = false → hexDecode (dropHex0x (pyStrip s)) = some bs →
      (beginsWithBrace (pyStrip (utf8Text bs)) = true → classify s = RawClass.hexEncodedText) ∧
      (beginsWithBrace (pyStrip (utf8Text bs)) = false → classify s = RawClass.abiBinary)) := by
  refine ⟨?_, ?_, ?_, ?_⟩
  · unfold classify
    by_cases h1 : beginsWithBrace (pyStrip s)
    · simp [h1]
    · simp only [h1, Bool.false_eq_true, if_false]
      cases h2 : hexDecode (dropHex0x (pyStrip s)) with
      | none => simp
      | some bs =>
        by_cases h3 : beginsWithBrace (pyStrip (utf8Text bs)) <;> simp [h3]
  · intro h1
    simp [classify, h1]
  · intro h1 h2
    simp [classify, h1, h2]
  · intro bs h1 h2
    constructor <;> intro h3 <;> simp [classify, h1, h2, h3]

/-- Witness for C5 at the three classes: a JSON-looking string, the hex
encoding of `"\x7b\x7d"`, and a non-hex string. -/
theorem c5_witness :
    classify " \x7bx" = RawClass.alreadyJson ∧
    classify "0x7b7d" = RawClass.hexEncodedText ∧
    classify "zz" = RawClass.abiBinary :=
  ⟨(c5_classifier_total " \x7bx").2.1 (by decide),
   ((c5_classifier_total "0x7b7d").2.2.2 [123, 125] (by decide) (by decide)).1 (by decide),
   (c5_classifier_total "zz").2.2.1 (by decide) (by decide)⟩

/-- Claim C6 (confirmed, modelled from spec §4.3): the legacy positional
decoder extracts the metadata URL, metadata JSON text and context JSON
text from indices 3/4/5 of the token-configuration sub-array (index 0 of
the main tuple inside `params`) and the creator reward recipient from
index 1 of the rewards sub-array (index 4 of the main tuple); an absent
or wrongly-typed slot yields `shapeMismatch`, and the decoder is total —
it never raises an index-out-of-range error. -/
theorem c6_legacy_positional :
    (∀ (x0 x1 x2 : Val) (u m c : String) (ts : List Val) (m1 m2 m3 w0 : Val)
       (r : String) (ws ms qs : List Val) (rest : List (String × Val)),
      legacyDecode
        (Val.dict (("params",
          Val.list (Val.list
            (Val.list (x0 :: x1 :: x2 :: Val.str u :: Val.str m :: Val.str c :: ts)
              :: m1 :: m2 :: m3 :: Val.list (w0 :: Val.str r :: ws) :: ms) :: qs)) :: rest))
      = Except.ok ⟨u, m, c, r⟩) ∧
    (∀ (tc : List Val) (m1 m2 m3 rcv : Val) (ms qs : List Val),
      tc.length ≤ 3 →
      legacyDecode
        (Val.dict [("params",
          Val.list (Val.list (Val.list tc :: m1 :: m2 :: m3 :: rcv :: ms) :: qs))])
      = Except.error LegacyErr.shapeMismatch) ∧
    (∀ j, legacyDecode j = Except.error LegacyErr.shapeMismatch ∨
      ∃ f, legacyDecode j = Except.ok f) := by
  refine ⟨?_, ?_, ?_⟩
  · intro x0 x1 x2 u m c ts m1 m2 m3 w0 r ws ms qs rest
    rfl
  · intro tc m1 m2 m3 rcv ms qs hlen
    have hget : tc[3]? = (Option.none : Option Val) := by
      rw [List.getElem?_eq_none_iff]
      omega
    simp [legacyDecode, dictLookup, asList, hget]
  · intro j
    cases h : legacyDecode j with
    | error e =>
      cases e
      exact Or.inl rfl
    | ok f => exact Or.inr ⟨f, rfl⟩

/-- Witness for C6: the well-shaped legacy payload of spec §8 decodes to
its four fields, and a token config with only three slots mismatches. -/
theorem c6_witness :
    legacyDecode
      (Val.dict [("params",
        Val.list [Val.list
          [Val.list [Val.str "", Val.str "", Val.str "", Val.str "https://img/m",
                     Val.str "md", Val.str "ctx"],
           Val.none, Val.none, Val.none, Val.list [Val.none, Val.str "0xR"]]])])
    = Except.ok ⟨"https://img/m", "md", "ctx", "0xR"⟩ ∧
    legacyDecode
      (Val.dict [("params",
        Val.list [Val.list
          [Val.list [Val.str "a", Val.str "b", Val.str "c"],
           Val.none, Val.none, Val.none, Val.list [Val.none, Val.str "0xR"]]])])
    = Except.error LegacyErr.shapeMismatch :=
  ⟨(c6_legacy_positional.1 (Val.str "") (Val.str "") (Val.str "")
      "https://img/m" "md" "ctx" [] Val.none Val.none Val.none Val.none "0xR" [] [] [] []),
   (c6_legacy_positional.2.1 [Val.str "a", Val.str "b", Val.str "c"]
      Val.none Val.none Val.none (Val.list [Val.none, Val.str "0xR"]) [] [] (by decide))⟩

end GetClank
